import Mathlib

/-!
Verification of the concurrent stream-merging engine in
backend/services/challenger_service.py and the competition router in
backend/routers/competition.py.

Modelling choices:
* Python strings are lists of characters (Str below).
* Clock readings (time.time()) are rational numbers; each upstream fragment
  carries the clock value at which it is received, and the end of the upstream
  stream carries the clock value at which completion or failure is observed.
* The single-threaded cooperative scheduler is modelled by quantifying over
  every order-preserving interleaving of the two runners' queue pushes: the
  shared FIFO queue delivers each runner's events in push order, and the merge
  loop drains the queue completely before emitting the final complete event,
  so the observable stream is an arbitrary interleaving of the two runners'
  event lists followed by the complete event.
* Python int() applied to a float truncates toward zero (pyInt below).
-/

/-- Python strings, modelled as lists of characters. -/
abbrev Str := List Char

/-- Python int() on a real value: truncation toward zero. -/
def pyInt (q : ℚ) : ℤ := if 0 ≤ q then ⌊q⌋ else ⌈q⌉

/-- Timing data for a challenger's response (class ChallengerTiming). -/
structure ChallengerTiming where
  start_time : ℚ
  first_token_time : Option ℚ
  complete_time : Option ℚ
  total_tokens : ℕ
deriving DecidableEq

/-- Property first_token_ms of ChallengerTiming. -/
def ChallengerTiming.first_token_ms (t : ChallengerTiming) : Option ℤ :=
  match t.first_token_time with
  | none => none
  | some ftt => some (pyInt ((ftt - t.start_time) * 1000))

/-- Property complete_ms of ChallengerTiming. -/
def ChallengerTiming.complete_ms (t : ChallengerTiming) : Option ℤ :=
  match t.complete_time with
  | none => none
  | some ct => some (pyInt ((ct - t.start_time) * 1000))

/-- Property tokens_per_second of ChallengerTiming: None when the run has not
completed or total_tokens equals zero, None when the duration is zero, and the
quotient otherwise. -/
def ChallengerTiming.tokens_per_second (t : ChallengerTiming) : Option ℚ :=
  match t.complete_time with
  | none => none
  | some ct =>
    if t.total_tokens = 0 then none
    else if ct - t.start_time = 0 then none
    else some ((t.total_tokens : ℚ) / (ct - t.start_time))

/-- One upstream streaming request: what the external endpoint delivers to
stream_challenger_response. Each fragment is the content of one streamed chunk
(possibly empty, which the code's truthiness check skips) paired with the clock
value at which it arrives; endTime is the clock value observed at normal
end-of-stream or at the failure point; err is the exception message when the
request fails after delivering the listed fragments, none when it succeeds. -/
structure Upstream where
  fragments : List (Str × ℚ)
  endTime : ℚ
  err : Option Str
deriving DecidableEq

/-- The async-for body of stream_challenger_response: skip falsy (empty)
contents, record first_token_time at the first kept fragment only, add one to
total_tokens per kept fragment, and yield the content. Returns the yielded
contents together with the updated timing. -/
def streamLoop : List (Str × ℚ) → ChallengerTiming → List Str × ChallengerTiming
  | [], t => ([], t)
  | (s, now) :: rest, t =>
    if s.isEmpty then streamLoop rest t
    else
      let t1 := match t.first_token_time with
        | none => { t with first_token_time := some now }
        | some _ => t
      let t2 := { t1 with total_tokens := t1.total_tokens + 1 }
      let res := streamLoop rest t2
      (s :: res.1, res.2)

/-- The failure-marker prefix used by stream_challenger_response. -/
def errorMarker : Str := "__ERROR__:".data

/-- stream_challenger_response: yields the kept fragment contents while
mutating one timing record; on normal end of stream it records complete_time;
on failure it records complete_time and yields one marker item made of the
marker prefix followed by the exception message. Because the same timing
object is yielded by reference, a consumer that keeps the last yielded timing
observes its final state; the model therefore returns the final timing. -/
def stream_challenger_response (startTime : ℚ) (up : Upstream) :
    List Str × ChallengerTiming :=
  let r := streamLoop up.fragments
    { start_time := startTime, first_token_time := none, complete_time := none,
      total_tokens := 0 }
  let tFin := { r.2 with complete_time := some up.endTime }
  match up.err with
  | none => (r.1, tFin)
  | some msg => (r.1 ++ [errorMarker ++ msg], tFin)

/-- Python content.replace applied to the marker and the empty replacement,
written with explicit fuel so that it reduces in the kernel: removes every
non-overlapping occurrence of the marker, scanning left to right. Every step
consumes at least one character, so fuel equal to the input length suffices. -/
def stripMarkerFuel : ℕ → Str → Str
  | 0, _ => []
  | _ + 1, [] => []
  | fuel + 1, c :: rest =>
    if errorMarker.isPrefixOf (c :: rest) then
      stripMarkerFuel fuel (rest.drop (errorMarker.length - 1))
    else c :: stripMarkerFuel fuel rest

/-- Python content.replace with the marker pattern and empty replacement. -/
def stripMarker (s : Str) : Str := stripMarkerFuel s.length s

/-- Per-challenger block of the complete event's timing dictionary. -/
structure ChallengerSummary where
  model : Str
  first_token_ms : Option ℤ
  complete_ms : Option ℤ
  total_tokens : ℕ
  tokens_per_second : Option ℚ
  failed : Bool
  error : Option Str
deriving DecidableEq

/-- Events of the merged stream (the dictionaries yielded by
merge_challenger_streams). -/
inductive SEvent where
  | chunk (challenger : Str) (content : Str) (elapsed_ms : ℤ)
  | error (challenger : Str) (message : Str)
  | complete (alpha : ChallengerSummary) (beta : ChallengerSummary)
      (alphaAnswer : Option Str) (betaAnswer : Option Str)
deriving DecidableEq

/-- True on chunk events. -/
def isChunk : SEvent → Bool
  | .chunk _ _ _ => true
  | _ => false

/-- True on complete events. -/
def isCompleteEv : SEvent → Bool
  | .complete _ _ _ _ => true
  | _ => false

/-- Content of a chunk event belonging to the given challenger. -/
def chunkContentOf (cid : Str) : SEvent → Option Str
  | .chunk c s _ => if c = cid then some s else none
  | _ => none

/-- Token counts carried by a complete event. -/
def completeTokens : SEvent → Option (ℕ × ℕ)
  | .complete a b _ _ => some (a.total_tokens, b.total_tokens)
  | _ => none

/-- Failure flags carried by a complete event. -/
def completeFailed : SEvent → Option (Bool × Bool)
  | .complete a b _ _ => some (a.failed, b.failed)
  | _ => none

/-- Answer fields carried by a complete event. -/
def completeAnswers : SEvent → Option (Option Str × Option Str)
  | .complete _ _ x y => some (x, y)
  | _ => none

/-- State owned by one run_challenger task: the accumulated answer, the last
recorded error message, and the queue events it has pushed, in push order. -/
structure RunnerState where
  answer : Str
  error : Option Str
  events : List SEvent
deriving DecidableEq

/-- The async-for body of run_challenger: a marker item records an error (the
content with every marker occurrence removed) and pushes an error event; any
other item extends the accumulated answer and pushes a chunk event whose
elapsed_ms is the clock-derived value for that push (supplied by the elapsed
function, indexed by the number of chunks pushed so far). -/
def run_challenger_loop (cid : Str) (elapsed : ℕ → ℤ) :
    List Str → RunnerState → ℕ → RunnerState
  | [], st, _ => st
  | content :: rest, st, k =>
    if errorMarker.isPrefixOf content then
      run_challenger_loop cid elapsed rest
        { st with error := some (stripMarker content),
                  events := st.events ++ [SEvent.error cid (stripMarker content)] } k
    else
      run_challenger_loop cid elapsed rest
        { st with answer := st.answer ++ content,
                  events := st.events ++ [SEvent.chunk cid content (elapsed k)] }
        (k + 1)

/-- run_challenger applied to the items yielded by its
stream_challenger_response call, starting from empty state. -/
def run_challenger (cid : Str) (elapsed : ℕ → ℤ) (items : List Str) : RunnerState :=
  run_challenger_loop cid elapsed items
    { answer := [], error := none, events := [] } 0

/-- Identity of the first challenger. -/
def alphaId : Str := "alpha".data

/-- Identity of the second challenger. -/
def betaId : Str := "beta".data

/-- All nondeterministic inputs of one call to merge_challenger_streams: the
configured models, the clock values at which each runner starts, each
challenger's upstream behaviour, and the elapsed_ms values attached to each
challenger's successive chunk pushes. -/
structure MergeRun where
  alphaModel : Str
  betaModel : Str
  alphaStart : ℚ
  betaStart : ℚ
  alphaUp : Upstream
  betaUp : Upstream
  alphaElapsed : ℕ → ℤ
  betaElapsed : ℕ → ℤ

/-- Items yielded by alpha's stream_challenger_response call. -/
def alphaItems (r : MergeRun) : List Str :=
  (stream_challenger_response r.alphaStart r.alphaUp).1

/-- Items yielded by beta's stream_challenger_response call. -/
def betaItems (r : MergeRun) : List Str :=
  (stream_challenger_response r.betaStart r.betaUp).1

/-- Final state of alpha's timing record. -/
def alphaFinalTiming (r : MergeRun) : ChallengerTiming :=
  (stream_challenger_response r.alphaStart r.alphaUp).2

/-- Final state of beta's timing record. -/
def betaFinalTiming (r : MergeRun) : ChallengerTiming :=
  (stream_challenger_response r.betaStart r.betaUp).2

/-- Final state of the alpha run_challenger task. -/
def alphaState (r : MergeRun) : RunnerState :=
  run_challenger alphaId r.alphaElapsed (alphaItems r)

/-- Final state of the beta run_challenger task. -/
def betaState (r : MergeRun) : RunnerState :=
  run_challenger betaId r.betaElapsed (betaItems r)

/-- The alpha_timing and beta_timing variables of merge_challenger_streams are
rebound to the (shared, mutable) timing object on each yielded item, so they
are set exactly when at least one item was yielded, and then alias the final
timing state. -/
def capturedTiming (items : List Str) (t : ChallengerTiming) :
    Option ChallengerTiming :=
  if items.isEmpty then none else some t

/-- One challenger's block of the complete event, lines 315 to 336 of
challenger_service.py: values drawn from the captured timing when present,
failed true exactly when an error message was recorded (is-not-None check). -/
def mkSummary (model : Str) (t? : Option ChallengerTiming) (err : Option Str) :
    ChallengerSummary :=
  { model := model
    first_token_ms := match t? with | some t => t.first_token_ms | none => none
    complete_ms := match t? with | some t => t.complete_ms | none => none
    total_tokens := match t? with | some t => t.total_tokens | none => 0
    tokens_per_second :=
      match t? with | some t => t.tokens_per_second | none => none
    failed := err.isSome
    error := err }

/-- The answers field of the complete event: the accumulated answer unless the
recorded error message is truthy; Python truthiness makes both None and the
empty string falsy, so an empty recorded error message lets the accumulated
text through. -/
def answerValue (ans : Str) (err : Option Str) : Option Str :=
  match err with
  | none => some ans
  | some e => if e.isEmpty then some ans else none

/-- The single complete event emitted at the end of merge_challenger_streams. -/
def completeEvent (r : MergeRun) : SEvent :=
  SEvent.complete
    (mkSummary r.alphaModel
      (capturedTiming (alphaItems r) (alphaFinalTiming r)) (alphaState r).error)
    (mkSummary r.betaModel
      (capturedTiming (betaItems r) (betaFinalTiming r)) (betaState r).error)
    (answerValue (alphaState r).answer (alphaState r).error)
    (answerValue (betaState r).answer (betaState r).error)

/-- Order-preserving interleavings: Interleave as bs cs holds when cs splits
into the subsequences as and bs, each kept in its own order. This is the set
of delivery orders a FIFO queue fed by two producers can realise. -/
inductive Interleave {α : Type _} : List α → List α → List α → Prop
  | nil : Interleave [] [] []
  | left {as bs cs : List α} {a : α} :
      Interleave as bs cs → Interleave (a :: as) bs (a :: cs)
  | right {as bs cs : List α} {b : α} :
      Interleave as bs cs → Interleave as (b :: bs) (b :: cs)

/-- Executable check for Interleave, used to certify concrete instances. -/
def interleaves [DecidableEq α] : List α → List α → List α → Bool
  | as, bs, [] => as.isEmpty && bs.isEmpty
  | as, bs, c :: cs =>
    (match as with
     | a :: as2 => decide (a = c) && interleaves as2 bs cs
     | [] => false)
    || (match bs with
        | b :: bs2 => decide (b = c) && interleaves as bs2 cs
        | [] => false)

/-- Observable outputs of one merge_challenger_streams run: the two runners'
queue pushes in some interleaved order (all of them, since every push happens
before the runner's completion flag is set and the merge loop drains the queue
after both flags are set), followed by the single complete event. -/
def MergeOut (r : MergeRun) (out : List SEvent) : Prop :=
  ∃ σ, Interleave (alphaState r).events (betaState r).events σ ∧
    out = σ ++ [completeEvent r]

/-- Result from a challenger's response (class ChallengerResult). -/
structure ChallengerResult where
  challenger_id : Str
  model : Str
  answer : Str
  timing : ChallengerTiming
  error : Option Str
  failed : Bool
deriving DecidableEq

/-- State for a competition round (class CompetitionSession). -/
structure CompetitionSession where
  question : Str
  resume : Str
  job_description : Str
  alpha_result : Option ChallengerResult
  beta_result : Option ChallengerResult
  created_at : ℚ
deriving DecidableEq

/-- The in-memory session dictionary. -/
def Sessions := Str → Option CompetitionSession

/-- create_session: stores a fresh session under the identifier. -/
def create_session (ss : Sessions) (sid q re jd : Str) (now : ℚ) : Sessions :=
  fun k =>
    if k = sid then
      some { question := q, resume := re, job_description := jd,
             alpha_result := none, beta_result := none, created_at := now }
    else ss k

/-- get_session: dictionary lookup. -/
def get_session (ss : Sessions) (sid : Str) : Option CompetitionSession :=
  ss sid

/-- update_session_result: when the session exists, writes the alpha slot for
challenger_id "alpha" and the beta slot for every other challenger_id; when
the session does not exist, does nothing. -/
def update_session_result (ss : Sessions) (sid cid : Str)
    (res : ChallengerResult) : Sessions :=
  match ss sid with
  | none => ss
  | some sess =>
    fun k =>
      if k = sid then
        some (if cid = alphaId then { sess with alpha_result := some res }
              else { sess with beta_result := some res })
      else ss k

/-- Body of the status endpoint response. -/
structure StatusResponse where
  session_id : Str
  question : Str
  alpha_result : Option ChallengerResult
  beta_result : Option ChallengerResult
  created_at : ℚ
deriving DecidableEq

/-- get_competition_status: 404 when the session is unknown, otherwise the
stored per-challenger results and creation time. -/
def get_competition_status (ss : Sessions) (sid : Str) :
    Except ℕ StatusResponse :=
  match ss sid with
  | none => Except.error 404
  | some s =>
    Except.ok { session_id := sid, question := s.question,
                alpha_result := s.alpha_result, beta_result := s.beta_result,
                created_at := s.created_at }

/-- stream_competition handler: 404 when the session is unknown, otherwise it
streams the merge output for the stored inputs. It performs no write to the
session registry (no caller of update_session_result exists in the code), so
the handler returns the registry unchanged in either branch. -/
def stream_competition (ss : Sessions) (sid : Str) (out : List SEvent) :
    Except ℕ (List SEvent) × Sessions :=
  match ss sid with
  | none => (Except.error 404, ss)
  | some _ => (Except.ok out, ss)

/-- The first-in-first-out chunk-event block a marker-free item list pushes. -/
def chunkEvents (cid : Str) (el : ℕ → ℤ) : List Str → ℕ → List SEvent
  | [], _ => []
  | s :: rest, k => SEvent.chunk cid s (el k) :: chunkEvents cid el rest (k + 1)

theorem interleaves_sound [DecidableEq α] :
    ∀ (cs as bs : List α), interleaves as bs cs = true → Interleave as bs cs := by
  intro cs
  induction cs with
  | nil =>
    intro as bs h
    simp only [interleaves, Bool.and_eq_true, List.isEmpty_iff] at h
    obtain ⟨rfl, rfl⟩ := h
    exact Interleave.nil
  | cons c cs ih =>
    intro as bs h
    simp only [interleaves, Bool.or_eq_true] at h
    rcases h with h1 | h1
    · cases as with
      | nil => simp at h1
      | cons a as2 =>
        simp only [Bool.and_eq_true, decide_eq_true_eq] at h1
        obtain ⟨rfl, hr⟩ := h1
        exact Interleave.left (ih as2 bs hr)
    · cases bs with
      | nil => simp at h1
      | cons b bs2 =>
        simp only [Bool.and_eq_true, decide_eq_true_eq] at h1
        obtain ⟨rfl, hr⟩ := h1
        exact Interleave.right (ih as bs2 hr)

theorem Interleave.countP {as bs cs : List α} (p : α → Bool)
    (h : Interleave as bs cs) :
    cs.countP p = as.countP p + bs.countP p := by
  induction h with
  | nil => simp
  | left _ ih => simp only [List.countP_cons, ih]; omega
  | right _ ih => simp only [List.countP_cons, ih]; omega

theorem Interleave.mem {as bs cs : List α} {x : α}
    (h : Interleave as bs cs) (hx : x ∈ cs) : x ∈ as ∨ x ∈ bs := by
  induction h with
  | nil => cases hx
  | left _ ih =>
    rcases List.mem_cons.mp hx with rfl | hx2
    · exact Or.inl (List.mem_cons_self _ _)
    · rcases ih hx2 with h2 | h2
      · exact Or.inl (List.mem_cons_of_mem _ h2)
      · exact Or.inr h2
  | right _ ih =>
    rcases List.mem_cons.mp hx with rfl | hx2
    · exact Or.inr (List.mem_cons_self _ _)
    · rcases ih hx2 with h2 | h2
      · exact Or.inl h2
      · exact Or.inr (List.mem_cons_of_mem _ h2)

theorem Interleave.filterMap_right_none {as bs cs : List α} {f : α → Option β}
    (h : Interleave as bs cs) (hb : ∀ b ∈ bs, f b = none) :
    cs.filterMap f = as.filterMap f := by
  induction h with
  | nil => rfl
  | left _ ih =>
    simp only [List.filterMap_cons]
    rw [ih hb]
  | right hrec ih =>
    rename_i as2 bs2 cs2 b
    simp only [List.filterMap_cons]
    rw [hb b (List.mem_cons_self _ _)]
    exact ih fun x hx => hb x (List.mem_cons_of_mem _ hx)

theorem Interleave.comm {as bs cs : List α} (h : Interleave as bs cs) :
    Interleave bs as cs := by
  induction h with
  | nil => exact Interleave.nil
  | left _ ih => exact Interleave.right ih
  | right _ ih => exact Interleave.left ih

theorem chunkEvents_length (cid : Str) (el : ℕ → ℤ) :
    ∀ (items : List Str) (k : ℕ), (chunkEvents cid el items k).length = items.length := by
  intro items
  induction items with
  | nil => intro k; rfl
  | cons s rest ih => intro k; simp [chunkEvents, ih]

theorem chunkEvents_isChunk (cid : Str) (el : ℕ → ℤ) :
    ∀ (items : List Str) (k : ℕ) (e : SEvent),
      e ∈ chunkEvents cid el items k → isChunk e = true := by
  intro items
  induction items with
  | nil => intro k e he; cases he
  | cons s rest ih =>
    intro k e he
    rcases List.mem_cons.mp he with rfl | he2
    · rfl
    · exact ih (k + 1) e he2

theorem chunkEvents_countP_chunk (cid : Str) (el : ℕ → ℤ)
    (items : List Str) (k : ℕ) :
    (chunkEvents cid el items k).countP isChunk = items.length := by
  rw [← chunkEvents_length cid el items k]
  exact List.countP_eq_length.mpr (chunkEvents_isChunk cid el items k)

theorem run_challenger_loop_events_nomarker (cid : Str) (el : ℕ → ℤ) :
    ∀ (items : List Str) (st : RunnerState) (k : ℕ),
      (∀ s ∈ items, errorMarker.isPrefixOf s = false) →
      run_challenger_loop cid el items st k =
        { answer := st.answer ++ items.flatten, error := st.error,
          events := st.events ++ chunkEvents cid el items k } := by
  intro items
  induction items with
  | nil => intro st k _; simp [run_challenger_loop, chunkEvents]
  | cons s rest ih =>
    intro st k hm
    have hs : errorMarker.isPrefixOf s = false := hm s (List.mem_cons_self _ _)
    rw [run_challenger_loop, if_neg (by simp [hs])]
    rw [ih _ (k + 1) fun x hx => hm x (List.mem_cons_of_mem _ hx)]
    simp [chunkEvents, List.append_assoc]

theorem run_challenger_loop_countP_complete (cid : Str) (el : ℕ → ℤ) :
    ∀ (items : List Str) (st : RunnerState) (k : ℕ),
      (run_challenger_loop cid el items st k).events.countP isCompleteEv =
        st.events.countP isCompleteEv := by
  intro items
  induction items with
  | nil => intro st k; rfl
  | cons s rest ih =>
    intro st k
    rw [run_challenger_loop]
    by_cases hs : errorMarker.isPrefixOf s = true
    · rw [if_pos hs, ih]
      simp [List.countP_append, isCompleteEv]
    · rw [if_neg hs, ih]
      simp [List.countP_append, isCompleteEv]

theorem run_challenger_loop_noComplete (cid : Str) (el : ℕ → ℤ)
    (items : List Str) :
    (run_challenger cid el items).events.countP isCompleteEv = 0 := by
  rw [run_challenger, run_challenger_loop_countP_complete]
  rfl

theorem run_challenger_loop_filterMap_same (cid : Str) (el : ℕ → ℤ) :
    ∀ (items : List Str) (st : RunnerState) (k : ℕ),
      (run_challenger_loop cid el items st k).events.filterMap (chunkContentOf cid) =
        st.events.filterMap (chunkContentOf cid) ++
          items.filter (fun s => !(errorMarker.isPrefixOf s)) := by
  intro items
  induction items with
  | nil => intro st k; simp [run_challenger_loop]
  | cons s rest ih =>
    intro st k
    rw [run_challenger_loop]
    by_cases hs : errorMarker.isPrefixOf s = true
    · rw [if_pos hs, ih]
      simp [List.filterMap_append, chunkContentOf, List.filter_cons, hs]
    · rw [if_neg hs, ih]
      have hs2 : errorMarker.isPrefixOf s = false := by
        cases h2 : errorMarker.isPrefixOf s with
        | false => rfl
        | true => exact absurd h2 hs
      simp [List.filterMap_append, chunkContentOf, List.filter_cons, hs2]

theorem run_challenger_loop_filterMap_other (cid cid2 : Str) (el : ℕ → ℤ)
    (hne : cid ≠ cid2) :
    ∀ (items : List Str) (st : RunnerState) (k : ℕ),
      (run_challenger_loop cid el items st k).events.filterMap (chunkContentOf cid2) =
        st.events.filterMap (chunkContentOf cid2) := by
  intro items
  induction items with
  | nil => intro st k; rfl
  | cons s rest ih =>
    intro st k
    rw [run_challenger_loop]
    by_cases hs : errorMarker.isPrefixOf s = true
    · rw [if_pos hs, ih]
      simp [List.filterMap_append, chunkContentOf]
    · rw [if_neg hs, ih]
      simp [List.filterMap_append, chunkContentOf, hne]

theorem run_challenger_loop_error_nomarker (cid : Str) (el : ℕ → ℤ) :
    ∀ (items : List Str) (st : RunnerState) (k : ℕ),
      (∀ s ∈ items, errorMarker.isPrefixOf s = false) →
      (run_challenger_loop cid el items st k).error = st.error := by
  intro items st k hm
  rw [run_challenger_loop_events_nomarker cid el items st k hm]

theorem streamLoop_fst :
    ∀ (fs : List (Str × ℚ)) (t : ChallengerTiming),
      (streamLoop fs t).1 = (fs.map Prod.fst).filter (fun s => !s.isEmpty) := by
  intro fs
  induction fs with
  | nil => intro t; rfl
  | cons p rest ih =>
    intro t
    obtain ⟨s, now⟩ := p
    rw [streamLoop]
    by_cases hs : s.isEmpty = true
    · rw [if_pos hs, ih]
      simp [List.filter_cons, hs]
    · rw [if_neg hs]
      have hs2 : s.isEmpty = false := by
        cases h2 : s.isEmpty with
        | false => rfl
        | true => exact absurd h2 hs
      simp only [List.map_cons, List.filter_cons, hs2, Bool.not_false, if_pos rfl]
      simp [ih]

theorem streamLoop_tokens :
    ∀ (fs : List (Str × ℚ)) (t : ChallengerTiming),
      (streamLoop fs t).2.total_tokens =
        t.total_tokens + ((fs.map Prod.fst).filter (fun s => !s.isEmpty)).length := by
  intro fs
  induction fs with
  | nil => intro t; simp [streamLoop]
  | cons p rest ih =>
    intro t
    obtain ⟨s, now⟩ := p
    rw [streamLoop]
    by_cases hs : s.isEmpty = true
    · rw [if_pos hs, ih]
      simp [List.filter_cons, hs]
    · rw [if_neg hs]
      have hs2 : s.isEmpty = false := by
        cases h2 : s.isEmpty with
        | false => rfl
        | true => exact absurd h2 hs
      simp only [List.map_cons, List.filter_cons, hs2, Bool.not_false, if_pos rfl]
      cases hf : t.first_token_time <;> simp [hf, ih] <;> omega

theorem streamLoop_start :
    ∀ (fs : List (Str × ℚ)) (t : ChallengerTiming),
      (streamLoop fs t).2.start_time = t.start_time := by
  intro fs
  induction fs with
  | nil => intro t; rfl
  | cons p rest ih =>
    intro t
    obtain ⟨s, now⟩ := p
    rw [streamLoop]
    by_cases hs : s.isEmpty = true
    · rw [if_pos hs, ih]
    · rw [if_neg hs]
      cases hf : t.first_token_time <;> simp [hf, ih]

theorem streamLoop_ftt_some :
    ∀ (fs : List (Str × ℚ)) (t : ChallengerTiming) (τ : ℚ),
      t.first_token_time = some τ →
      (streamLoop fs t).2.first_token_time = some τ := by
  intro fs
  induction fs with
  | nil => intro t τ h; exact h
  | cons p rest ih =>
    intro t τ h
    obtain ⟨s, now⟩ := p
    rw [streamLoop]
    by_cases hs : s.isEmpty = true
    · rw [if_pos hs]; exact ih t τ h
    · rw [if_neg hs]
      simp only [h]
      exact ih _ τ rfl

theorem streamLoop_ftt_none :
    ∀ (fs : List (Str × ℚ)) (t : ChallengerTiming),
      t.first_token_time = none →
      (streamLoop fs t).2.first_token_time =
        (fs.filter (fun p => !p.1.isEmpty)).head?.map Prod.snd := by
  intro fs
  induction fs with
  | nil => intro t h; exact h
  | cons p rest ih =>
    intro t h
    obtain ⟨s, now⟩ := p
    rw [streamLoop]
    by_cases hs : s.isEmpty = true
    · rw [if_pos hs, ih t h]
      simp [List.filter_cons, hs]
    · rw [if_neg hs]
      have hs2 : s.isEmpty = false := by
        cases h2 : s.isEmpty with
        | false => rfl
        | true => exact absurd h2 hs
      simp only [h]
      rw [streamLoop_ftt_some rest _ now rfl]
      simp [List.filter_cons, hs2]

theorem stream_challenger_response_snd (startTime : ℚ) (up : Upstream) :
    (stream_challenger_response startTime up).2 =
      { start_time := startTime,
        first_token_time :=
          (up.fragments.filter (fun p => !p.1.isEmpty)).head?.map Prod.snd,
        complete_time := some up.endTime,
        total_tokens :=
          ((up.fragments.map Prod.fst).filter (fun s => !s.isEmpty)).length } := by
  rw [stream_challenger_response]
  cases up.err <;>
    simp [streamLoop_start, streamLoop_tokens, streamLoop_ftt_none]

theorem stream_challenger_response_fst (startTime : ℚ) (up : Upstream) :
    (stream_challenger_response startTime up).1 =
      (up.fragments.map Prod.fst).filter (fun s => !s.isEmpty) ++
        (match up.err with
         | none => []
         | some msg => [errorMarker ++ msg]) := by
  rw [stream_challenger_response]
  cases up.err <;> simp [streamLoop_fst]

theorem pyInt_le_pyInt {q1 q2 : ℚ} (h0 : 0 ≤ q1) (h : q1 ≤ q2) :
    pyInt q1 ≤ pyInt q2 := by
  rw [pyInt, pyInt, if_pos h0, if_pos (le_trans h0 h)]
  exact Int.floor_le_floor h

theorem head?_mem_of_eq {l : List α} {a : α} (h : l.head? = some a) : a ∈ l := by
  cases l with
  | nil => cases h
  | cons x xs =>
    simp only [List.head?] at h
    rw [← Option.some_inj.mp h]
    exact List.mem_cons_self x xs

/-- C6 (amended): the derived throughput equals total_tokens divided by the
total latency complete_time - start_time, and it is undefined exactly when the
run never completed, the total latency is zero, or total_tokens is zero (the
code returns None for a completed zero-token run as well). -/
theorem tokens_per_second_characterisation (t : ChallengerTiming) :
    (t.complete_time = none → t.tokens_per_second = none) ∧
    (t.total_tokens = 0 → t.tokens_per_second = none) ∧
    (∀ ct : ℚ, t.complete_time = some ct → ct - t.start_time = 0 →
      t.tokens_per_second = none) ∧
    (∀ ct : ℚ, t.complete_time = some ct → t.total_tokens ≠ 0 →
      ct - t.start_time ≠ 0 →
      t.tokens_per_second =
        some ((t.total_tokens : ℚ) / (ct - t.start_time))) := by
  refine ⟨?_, ?_, ?_, ?_⟩
  · intro h
    rw [ChallengerTiming.tokens_per_second, h]
  · intro h
    rw [ChallengerTiming.tokens_per_second]
    cases hc : t.complete_time with
    | none => rfl
    | some ct => simp [h]
  · intro ct hc hd
    rw [ChallengerTiming.tokens_per_second, hc]
    by_cases ht : t.total_tokens = 0 <;> simp [ht, hd]
  · intro ct hc ht hd
    rw [ChallengerTiming.tokens_per_second, hc]
    simp [ht, hd]

/-- Timing value used for the C6 counterexample. -/
def c6Timing : ChallengerTiming :=
  { start_time := 0, first_token_time := none, complete_time := some 5,
    total_tokens := 0 }

/-- C6 counterexample: a run that completed with nonzero total latency but
zero tokens has undefined throughput, while the claim says the throughput is
defined for a completed run with zero tokens. -/
theorem tokens_per_second_zero_tokens_counterexample :
    c6Timing.complete_time = some 5 ∧ (5 : ℚ) - c6Timing.start_time ≠ 0 ∧
    c6Timing.tokens_per_second = none :=
  ⟨rfl, by simp [c6Timing], rfl⟩

/-- Timing value used for the C6 witness. -/
def c6wTiming : ChallengerTiming :=
  { start_time := 0, first_token_time := some 1, complete_time := some 4,
    total_tokens := 2 }

theorem tokens_per_second_characterisation_witness :
    c6wTiming.tokens_per_second =
      some ((c6wTiming.total_tokens : ℚ) / (4 - c6wTiming.start_time)) :=
  (tokens_per_second_characterisation c6wTiming).2.2.2 4 rfl (by decide)
    (by simp [c6wTiming])

/-- C7: in a successful run observed through a monotone clock (the start
reading precedes every fragment reading, which precede the completion
reading), the first-token latency never exceeds the total latency when both
are defined. -/
theorem first_token_le_total_latency (startTime : ℚ) (up : Upstream)
    (_hsucc : up.err = none)
    (hclock : ∀ p ∈ up.fragments, startTime ≤ p.2 ∧ p.2 ≤ up.endTime) :
    ∀ a b : ℤ,
      (stream_challenger_response startTime up).2.first_token_ms = some a →
      (stream_challenger_response startTime up).2.complete_ms = some b →
      a ≤ b := by
  intro a b ha hb
  rw [stream_challenger_response_snd] at ha hb
  rw [ChallengerTiming.complete_ms] at hb
  simp only [Option.some.injEq] at hb
  rw [ChallengerTiming.first_token_ms] at ha
  cases hh : (up.fragments.filter (fun p => !p.1.isEmpty)).head? with
  | none => rw [hh] at ha; simp at ha
  | some pr =>
    rw [hh] at ha
    simp only [Option.map_some', Option.some.injEq] at ha
    have hmem : pr ∈ up.fragments :=
      List.mem_of_mem_filter (head?_mem_of_eq hh)
    obtain ⟨h1, h2⟩ := hclock pr hmem
    rw [← ha, ← hb]
    apply pyInt_le_pyInt
    · have : (0 : ℚ) ≤ pr.2 - startTime := by linarith
      positivity
    · have : pr.2 - startTime ≤ up.endTime - startTime := by linarith
      nlinarith

/-- Upstream used for the C7 witness. -/
def c7Up : Upstream :=
  { fragments := [("a".data, 1)], endTime := 2, err := none }

theorem first_token_le_total_latency_witness :
    (stream_challenger_response 0 c7Up).2.first_token_ms = some 1000 ∧
    (stream_challenger_response 0 c7Up).2.complete_ms = some 2000 ∧
    (1000 : ℤ) ≤ 2000 := by
  have hst : (stream_challenger_response 0 c7Up).2.start_time = 0 := by decide
  have hft : (stream_challenger_response 0 c7Up).2.first_token_time = some 1 := by
    decide
  have hct : (stream_challenger_response 0 c7Up).2.complete_time = some 2 := by
    decide
  have h1 : (stream_challenger_response 0 c7Up).2.first_token_ms = some 1000 := by
    rw [ChallengerTiming.first_token_ms, hft, hst]
    norm_num [pyInt]
  have h2 : (stream_challenger_response 0 c7Up).2.complete_ms = some 2000 := by
    rw [ChallengerTiming.complete_ms, hct, hst]
    norm_num [pyInt]
  exact ⟨h1, h2,
    first_token_le_total_latency 0 c7Up rfl (by decide) 1000 2000 h1 h2⟩

/-- C8: first_token_time is recorded at the first kept fragment (the clock
value read when the first truthy content arrives) and at most once: a timing
whose first_token_time is already set keeps it through any further fragments. -/
theorem first_token_recorded_once (startTime : ℚ) (up : Upstream) :
    (stream_challenger_response startTime up).2.first_token_time =
      (up.fragments.filter (fun p => !p.1.isEmpty)).head?.map Prod.snd ∧
    (∀ (fs : List (Str × ℚ)) (t : ChallengerTiming) (τ : ℚ),
      t.first_token_time = some τ →
      (streamLoop fs t).2.first_token_time = some τ) := by
  constructor
  · rw [stream_challenger_response_snd]
  · exact streamLoop_ftt_some

/-- Upstream used for the C8 witness. -/
def c8Up : Upstream :=
  { fragments := [("".data, 3), ("a".data, 4), ("b".data, 9)], endTime := 10,
    err := none }

theorem first_token_recorded_once_witness :
    (stream_challenger_response 0 c8Up).2.first_token_time = some 4 ∧
    (streamLoop [("z".data, 7)]
      { start_time := 0, first_token_time := some 4, complete_time := none,
        total_tokens := 1 }).2.first_token_time = some 4 := by
  constructor
  · rw [(first_token_recorded_once 0 c8Up).1]
    decide
  · exact (first_token_recorded_once 0 c8Up).2 _ _ 4 rfl

/-- C10: update_session_result validates neither the session nor the
challenger identity: any challenger_id other than "alpha" writes the beta
slot, and an unknown session_id leaves the registry unchanged. -/
theorem update_session_result_characterisation (ss : Sessions) (sid cid : Str)
    (res : ChallengerResult) :
    (∀ sess : CompetitionSession,
      get_session ss sid = some sess → cid ≠ alphaId →
      update_session_result ss sid cid res =
        fun k =>
          if k = sid then some { sess with beta_result := some res }
          else ss k) ∧
    (get_session ss sid = none → update_session_result ss sid cid res = ss) := by
  constructor
  · intro sess hs hcid
    rw [get_session] at hs
    rw [update_session_result, hs]
    funext k
    by_cases hk : k = sid <;> simp [hk, hcid]
  · intro hs
    rw [get_session] at hs
    rw [update_session_result, hs]

/-- Session used for the C10 witness. -/
def c10Sess : CompetitionSession :=
  { question := "q".data, resume := "r".data, job_description := "j".data,
    alpha_result := none, beta_result := none, created_at := 1 }

/-- Registry used for the C10 witness. -/
def c10Store : Sessions := fun k => if k = "s1".data then some c10Sess else none

/-- Result value used for the C10 witness. -/
def c10Res : ChallengerResult :=
  { challenger_id := "gamma".data, model := "m".data, answer := "a".data,
    timing := { start_time := 0, first_token_time := none,
                complete_time := none, total_tokens := 0 },
    error := none, failed := false }

theorem update_session_result_characterisation_witness :
    (update_session_result c10Store "s1".data "gamma".data c10Res =
      fun k =>
        if k = "s1".data then some { c10Sess with beta_result := some c10Res }
        else c10Store k) ∧
    update_session_result c10Store "zz".data "gamma".data c10Res = c10Store :=
  ⟨(update_session_result_characterisation c10Store "s1".data "gamma".data
      c10Res).1 c10Sess (by decide) (by decide),
   (update_session_result_characterisation c10Store "zz".data "gamma".data
      c10Res).2 (by decide)⟩

/-- Merge run used for the C2 code-bug evaluation: alpha's upstream fails with
an empty exception message after emitting the fragment Hello, beta succeeds
with the single fragment World. -/
def c2Run : MergeRun :=
  { alphaModel := "model-a".data, betaModel := "model-b".data,
    alphaStart := 0, betaStart := 0,
    alphaUp := { fragments := [("Hello".data, 1)], endTime := 2, err := some [] },
    betaUp := { fragments := [("World".data, 1)], endTime := 2, err := none },
    alphaElapsed := fun _ => 0, betaElapsed := fun _ => 0 }

/-- C2 (code-bug evaluation): when a challenger fails with an exception whose
message is the empty string after emitting partial text, the complete event
marks it failed yet carries its partial accumulated text instead of null: the
answers field tests Python truthiness of the recorded error message while the
failed flag tests is-not-None, and an empty message is falsy. -/
theorem complete_event_partial_answer_on_empty_error :
    completeFailed (completeEvent c2Run) = some (true, false) ∧
    completeAnswers (completeEvent c2Run) =
      some (some "Hello".data, some "World".data) := by
  decide

/-- Registry used for the C3 code-bug evaluation: one freshly created
session. -/
def c3Store : Sessions :=
  create_session (fun _ => none) "s1".data "q".data "r".data "j".data 5

/-- Merge run used for the C3 code-bug evaluation: both challengers succeed,
so the complete event reports non-null answers. -/
def c3Run : MergeRun :=
  { alphaModel := "model-a".data, betaModel := "model-b".data,
    alphaStart := 0, betaStart := 0,
    alphaUp := { fragments := [("Hi".data, 1)], endTime := 2, err := none },
    betaUp := { fragments := [("Yo".data, 1)], endTime := 2, err := none },
    alphaElapsed := fun _ => 0, betaElapsed := fun _ => 0 }

/-- C3 (code-bug evaluation): the streaming handler leaves the registry
unchanged on every request — nothing in the code calls update_session_result —
so querying status after a completed stream returns the per-challenger results
recorded at creation (none for both), while the stream's own complete event
reported non-null answers for the very same inputs. -/
theorem registry_not_updated_by_stream :
    (∀ (ss : Sessions) (sid : Str) (out : List SEvent),
      (stream_competition ss sid out).2 = ss) ∧
    get_competition_status c3Store "s1".data =
      Except.ok { session_id := "s1".data, question := "q".data,
                  alpha_result := none, beta_result := none, created_at := 5 } ∧
    completeAnswers (completeEvent c3Run) =
      some (some "Hi".data, some "Yo".data) := by
  refine ⟨?_, by rfl, by decide⟩
  intro ss sid out
  cases h : ss sid <;> simp [stream_competition, h]

/-- C9 (amended): the merge loop classifies items by the marker prefix alone:
any item whose content starts with the marker — genuine model output included —
produces an error event rather than a chunk event, records the content with
every occurrence of the marker removed as the challenger's error (the
remainder whenever the marker occurs only as the prefix), leaves the
accumulated answer unchanged, makes the failed flag true, and forces the final
answer to null provided the recorded message is non-empty. -/
theorem marker_items_classified_as_errors :
    (∀ (cid : Str) (el : ℕ → ℤ) (f : Str) (rest : List Str) (st : RunnerState)
        (k : ℕ),
      errorMarker.isPrefixOf f = true →
      run_challenger_loop cid el (f :: rest) st k =
        run_challenger_loop cid el rest
          { st with error := some (stripMarker f),
                    events := st.events ++ [SEvent.error cid (stripMarker f)] }
          k) ∧
    (∀ (model : Str) (t? : Option ChallengerTiming) (e : Str),
      (mkSummary model t? (some e)).failed = true) ∧
    (∀ (ans e : Str), e ≠ [] → answerValue ans (some e) = none) := by
  refine ⟨?_, ?_, ?_⟩
  · intro cid el f rest st k h
    simp [run_challenger_loop, h]
  · intro model t? e
    rfl
  · intro ans e he
    rw [answerValue]
    cases e with
    | nil => exact absurd rfl he
    | cons c cs => rfl

/-- C9 counterexample: a marker-prefixed content containing the marker a
second time is recorded with both occurrences removed, not as the remainder
after the prefix: the claim's "records the remainder" reading fails. -/
theorem marker_remainder_counterexample :
    (run_challenger alphaId (fun _ => 0)
      ["__ERROR__:a__ERROR__:b".data]).error = some "ab".data ∧
    "ab".data ≠ "a__ERROR__:b".data := by
  decide

theorem marker_items_classified_as_errors_witness :
    run_challenger_loop alphaId (fun _ => 0) ["__ERROR__:x".data]
        { answer := [], error := none, events := [] } 0 =
      { answer := [], error := some "x".data,
        events := [SEvent.error alphaId "x".data] } ∧
    answerValue "partial".data (some "x".data) = none := by
  constructor
  · rw [marker_items_classified_as_errors.1 alphaId (fun _ => 0)
      "__ERROR__:x".data [] { answer := [], error := none, events := [] } 0
      (by decide)]
    decide
  · exact marker_items_classified_as_errors.2.2 "partial".data "x".data
      (by decide)

theorem run_challenger_loop_mem_tag (cid : Str) (el : ℕ → ℤ) :
    ∀ (items : List Str) (st : RunnerState) (k : ℕ) (e : SEvent),
      e ∈ (run_challenger_loop cid el items st k).events →
      e ∈ st.events ∨ (∃ s elv, e = SEvent.chunk cid s elv) ∨
        (∃ m, e = SEvent.error cid m) := by
  intro items
  induction items with
  | nil => intro st k e he; exact Or.inl he
  | cons s rest ih =>
    intro st k e he
    by_cases hs : errorMarker.isPrefixOf s = true
    · rw [run_challenger_loop, if_pos hs] at he
      rcases ih _ k e he with hmem | h2
      · rcases List.mem_append.mp hmem with h3 | h3
        · exact Or.inl h3
        · right; right
          exact ⟨stripMarker s, by simpa using h3⟩
      · exact Or.inr h2
    · rw [run_challenger_loop, if_neg hs] at he
      rcases ih _ (k + 1) e he with hmem | h2
      · rcases List.mem_append.mp hmem with h3 | h3
        · exact Or.inl h3
        · right; left
          exact ⟨s, el k, by simpa using h3⟩
      · exact Or.inr h2

theorem run_challenger_events_other_none (cid cid2 : Str) (hne : cid ≠ cid2)
    (el : ℕ → ℤ) (items : List Str) :
    ∀ e ∈ (run_challenger cid el items).events, chunkContentOf cid2 e = none := by
  intro e he
  rcases run_challenger_loop_mem_tag cid el items _ 0 e he with h | h | h
  · cases h
  · obtain ⟨s, elv, rfl⟩ := h
    simp [chunkContentOf, hne]
  · obtain ⟨m, rfl⟩ := h
    rfl

theorem alphaState_noComplete (r : MergeRun) :
    (alphaState r).events.countP isCompleteEv = 0 :=
  run_challenger_loop_noComplete _ _ _

theorem betaState_noComplete (r : MergeRun) :
    (betaState r).events.countP isCompleteEv = 0 :=
  run_challenger_loop_noComplete _ _ _

theorem mkSummary_tokens (startTime : ℚ) (up : Upstream) (hup : up.err = none)
    (model : Str) (err : Option Str) :
    (mkSummary model
      (capturedTiming (stream_challenger_response startTime up).1
        (stream_challenger_response startTime up).2) err).total_tokens =
      (stream_challenger_response startTime up).1.length := by
  rw [capturedTiming]
  by_cases he : (stream_challenger_response startTime up).1.isEmpty = true
  · rw [if_pos he]
    rw [List.isEmpty_iff] at he
    simp [mkSummary, he]
  · rw [if_neg he]
    have hfst : (stream_challenger_response startTime up).1 =
        (up.fragments.map Prod.fst).filter (fun s => !s.isEmpty) := by
      rw [stream_challenger_response_fst, hup]
      simp
    simp only [mkSummary]
    rw [stream_challenger_response_snd, hfst]

theorem alpha_summary_tokens (r : MergeRun) (ha : r.alphaUp.err = none) :
    (mkSummary r.alphaModel
      (capturedTiming (alphaItems r) (alphaFinalTiming r))
      (alphaState r).error).total_tokens = (alphaItems r).length :=
  mkSummary_tokens r.alphaStart r.alphaUp ha r.alphaModel (alphaState r).error

theorem beta_summary_tokens (r : MergeRun) (hb : r.betaUp.err = none) :
    (mkSummary r.betaModel
      (capturedTiming (betaItems r) (betaFinalTiming r))
      (betaState r).error).total_tokens = (betaItems r).length :=
  mkSummary_tokens r.betaStart r.betaUp hb r.betaModel (betaState r).error

/-- C4: every merge run's observable stream — both challengers failing
included — contains exactly one complete event, that event is the last element
of the stream, and the stream is never empty; the merge loop's bounded-wait
polling and final drain are reflected in the model's totality. -/
theorem merge_single_complete_last (r : MergeRun) (out : List SEvent)
    (h : MergeOut r out) :
    out.countP isCompleteEv = 1 ∧ out ≠ [] ∧
    out.getLast? = some (completeEvent r) := by
  obtain ⟨σ, hσ, rfl⟩ := h
  refine ⟨?_, by simp, List.getLast?_concat σ⟩
  rw [List.countP_append, hσ.countP isCompleteEv, alphaState_noComplete,
    betaState_noComplete]
  rfl

/-- Merge run for the C4 witness: both challengers fail before any output. -/
def c4Run : MergeRun :=
  { alphaModel := "m1".data, betaModel := "m2".data,
    alphaStart := 0, betaStart := 0,
    alphaUp := { fragments := [], endTime := 1, err := some "boom".data },
    betaUp := { fragments := [], endTime := 1, err := some "crash".data },
    alphaElapsed := fun _ => 0, betaElapsed := fun _ => 0 }

/-- Stream for the C4 witness. -/
def c4Out : List SEvent :=
  ((alphaState c4Run).events ++ (betaState c4Run).events) ++ [completeEvent c4Run]

theorem merge_single_complete_last_witness :
    (c4Out.countP isCompleteEv = 1 ∧ c4Out ≠ [] ∧
      c4Out.getLast? = some (completeEvent c4Run)) ∧
    completeFailed (completeEvent c4Run) = some (true, true) ∧
    completeAnswers (completeEvent c4Run) = some (none, none) :=
  ⟨merge_single_complete_last c4Run c4Out
      ⟨(alphaState c4Run).events ++ (betaState c4Run).events,
       interleaves_sound _ _ _ (by decide), rfl⟩,
   by decide, by decide⟩

/-- C1 (amended): for two upstreams that finish without failure and none of
whose produced fragments begins with the failure-marker prefix, every
observable merge stream consists of exactly N1 + N2 chunk events followed by
exactly one complete event, and the complete event's per-challenger token
counts equal N1 and N2, the lengths of the produced fragment sequences. -/
theorem merge_success_chunk_count (r : MergeRun) (out : List SEvent)
    (h : MergeOut r out)
    (ha : r.alphaUp.err = none) (hb : r.betaUp.err = none)
    (hm1 : ∀ s ∈ alphaItems r, errorMarker.isPrefixOf s = false)
    (hm2 : ∀ s ∈ betaItems r, errorMarker.isPrefixOf s = false) :
    out.countP isChunk = (alphaItems r).length + (betaItems r).length ∧
    out.countP isCompleteEv = 1 ∧
    out.dropLast.all isChunk = true ∧
    out.getLast? = some (completeEvent r) ∧
    completeTokens (completeEvent r) =
      some ((alphaItems r).length, (betaItems r).length) := by
  obtain ⟨σ, hσ, rfl⟩ := h
  have hAev : (alphaState r).events =
      chunkEvents alphaId r.alphaElapsed (alphaItems r) 0 := by
    rw [alphaState, run_challenger,
      run_challenger_loop_events_nomarker _ _ _ _ _ hm1]
    rfl
  have hBev : (betaState r).events =
      chunkEvents betaId r.betaElapsed (betaItems r) 0 := by
    rw [betaState, run_challenger,
      run_challenger_loop_events_nomarker _ _ _ _ _ hm2]
    rfl
  refine ⟨?_, ?_, ?_, List.getLast?_concat σ, ?_⟩
  · rw [List.countP_append, hσ.countP isChunk, hAev, hBev,
      chunkEvents_countP_chunk, chunkEvents_countP_chunk]
    rfl
  · rw [List.countP_append, hσ.countP isCompleteEv, alphaState_noComplete,
      betaState_noComplete]
    rfl
  · rw [List.dropLast_concat, List.all_eq_true]
    intro e hemem
    rcases hσ.mem hemem with hA | hB
    · rw [hAev] at hA
      exact chunkEvents_isChunk _ _ _ _ e hA
    · rw [hBev] at hB
      exact chunkEvents_isChunk _ _ _ _ e hB
  · simp only [completeEvent, completeTokens]
    rw [alpha_summary_tokens r ha, beta_summary_tokens r hb]

/-- Merge run for the C1 witness: alpha produces one fragment, beta two. -/
def c1Run : MergeRun :=
  { alphaModel := "m1".data, betaModel := "m2".data,
    alphaStart := 0, betaStart := 0,
    alphaUp := { fragments := [("Hi".data, 1)], endTime := 2, err := none },
    betaUp := { fragments := [("Yo".data, 1), ("!".data, 2)], endTime := 3,
                err := none },
    alphaElapsed := fun _ => 0, betaElapsed := fun _ => 0 }

/-- Stream for the C1 witness. -/
def c1Out : List SEvent :=
  ((alphaState c1Run).events ++ (betaState c1Run).events) ++ [completeEvent c1Run]

theorem merge_success_chunk_count_witness :
    c1Out.countP isChunk = (alphaItems c1Run).length + (betaItems c1Run).length ∧
    c1Out.countP isCompleteEv = 1 ∧
    c1Out.dropLast.all isChunk = true ∧
    c1Out.getLast? = some (completeEvent c1Run) ∧
    completeTokens (completeEvent c1Run) =
      some ((alphaItems c1Run).length, (betaItems c1Run).length) :=
  merge_success_chunk_count c1Run c1Out
    ⟨(alphaState c1Run).events ++ (betaState c1Run).events,
     interleaves_sound _ _ _ (by decide), rfl⟩
    rfl rfl (by decide) (by decide)

/-- Merge run for the C1 counterexample: both producers succeed, but alpha's
single fragment happens to begin with the failure-marker prefix. -/
def c1BadRun : MergeRun :=
  { alphaModel := "m1".data, betaModel := "m2".data,
    alphaStart := 0, betaStart := 0,
    alphaUp := { fragments := [("__ERROR__:x".data, 1)], endTime := 2,
                 err := none },
    betaUp := { fragments := [("b".data, 1)], endTime := 2, err := none },
    alphaElapsed := fun _ => 0, betaElapsed := fun _ => 0 }

/-- Stream for the C1 counterexample. -/
def c1BadOut : List SEvent :=
  ((alphaState c1BadRun).events ++ (betaState c1BadRun).events) ++
    [completeEvent c1BadRun]

/-- C1 counterexample: both producers finish without failure and emit one
fragment each (N1 = N2 = 1), yet the merge stream carries a single chunk
event, not N1 + N2 = 2, because alpha's genuine fragment starts with the
failure-marker prefix and is turned into an error event. -/
theorem merge_chunk_count_counterexample :
    MergeOut c1BadRun c1BadOut ∧
    c1BadRun.alphaUp.err = none ∧ c1BadRun.betaUp.err = none ∧
    (alphaItems c1BadRun).length = 1 ∧ (betaItems c1BadRun).length = 1 ∧
    c1BadOut.countP isChunk = 1 ∧ (1 : ℕ) ≠ 1 + 1 :=
  ⟨⟨(alphaState c1BadRun).events ++ (betaState c1BadRun).events,
    interleaves_sound _ _ _ (by decide), rfl⟩,
   rfl, rfl, by decide, by decide, by decide, by decide⟩

/-- C5 (amended): in every observable merge stream, the subsequence of chunk
events belonging to one challenger carries exactly that challenger's nonempty
fragments that do not begin with the failure-marker prefix, in the order they
were received from the network, however the two challengers' events
interleave. -/
theorem per_challenger_chunk_contents (r : MergeRun) (out : List SEvent)
    (h : MergeOut r out) :
    out.filterMap (chunkContentOf alphaId) =
      (r.alphaUp.fragments.map Prod.fst).filter
        (fun s => !(errorMarker.isPrefixOf s) && !s.isEmpty) ∧
    out.filterMap (chunkContentOf betaId) =
      (r.betaUp.fragments.map Prod.fst).filter
        (fun s => !(errorMarker.isPrefixOf s) && !s.isEmpty) := by
  obtain ⟨σ, hσ, rfl⟩ := h
  have hmark : ∀ m : Str, errorMarker.isPrefixOf (errorMarker ++ m) = true :=
    fun m => List.isPrefixOf_iff_prefix.mpr (List.prefix_append _ _)
  constructor
  · rw [List.filterMap_append]
    have hc : List.filterMap (chunkContentOf alphaId) [completeEvent r] = [] :=
      rfl
    rw [hc, List.append_nil,
      hσ.filterMap_right_none
        (run_challenger_events_other_none betaId alphaId (by decide)
          r.betaElapsed (betaItems r)),
      alphaState, run_challenger, run_challenger_loop_filterMap_same,
      alphaItems, stream_challenger_response_fst]
    cases he : r.alphaUp.err with
    | none => simp [List.filter_append, List.filter_filter]
    | some m => simp [List.filter_append, List.filter_filter, hmark m]
  · rw [List.filterMap_append]
    have hc : List.filterMap (chunkContentOf betaId) [completeEvent r] = [] :=
      rfl
    rw [hc, List.append_nil,
      hσ.comm.filterMap_right_none
        (run_challenger_events_other_none alphaId betaId (by decide)
          r.alphaElapsed (alphaItems r)),
      betaState, run_challenger, run_challenger_loop_filterMap_same,
      betaItems, stream_challenger_response_fst]
    cases he : r.betaUp.err with
    | none => simp [List.filter_append, List.filter_filter]
    | some m => simp [List.filter_append, List.filter_filter, hmark m]

/-- Merge run for the C5 witness: alpha's upstream delivers a fragment, an
empty chunk (skipped), and another fragment; beta delivers one fragment. -/
def c5Run : MergeRun :=
  { alphaModel := "m1".data, betaModel := "m2".data,
    alphaStart := 0, betaStart := 0,
    alphaUp := { fragments := [("Hi".data, 1), ("".data, 2), ("there".data, 3)],
                 endTime := 4, err := none },
    betaUp := { fragments := [("yo".data, 1)], endTime := 2, err := none },
    alphaElapsed := fun _ => 0, betaElapsed := fun _ => 0 }

/-- Stream for the C5 witness, with beta's event interleaved between alpha's
two chunk events. -/
def c5Out : List SEvent :=
  [SEvent.chunk alphaId "Hi".data 0, SEvent.chunk betaId "yo".data 0,
   SEvent.chunk alphaId "there".data 0] ++ [completeEvent c5Run]

theorem per_challenger_chunk_contents_witness :
    c5Out.filterMap (chunkContentOf alphaId) = ["Hi".data, "there".data] ∧
    c5Out.filterMap (chunkContentOf betaId) = ["yo".data] :=
  ⟨((per_challenger_chunk_contents c5Run c5Out
      ⟨[SEvent.chunk alphaId "Hi".data 0, SEvent.chunk betaId "yo".data 0,
        SEvent.chunk alphaId "there".data 0],
       interleaves_sound _ _ _ (by decide), rfl⟩).1).trans (by decide),
   ((per_challenger_chunk_contents c5Run c5Out
      ⟨[SEvent.chunk alphaId "Hi".data 0, SEvent.chunk betaId "yo".data 0,
        SEvent.chunk alphaId "there".data 0],
       interleaves_sound _ _ _ (by decide), rfl⟩).2).trans (by decide)⟩

/-- Merge run for the C5 counterexample: alpha's only network fragment begins
with the failure-marker prefix; beta produces nothing. -/
def c5BadRun : MergeRun :=
  { alphaModel := "m1".data, betaModel := "m2".data,
    alphaStart := 0, betaStart := 0,
    alphaUp := { fragments := [("__ERROR__:x".data, 1)], endTime := 2,
                 err := none },
    betaUp := { fragments := [], endTime := 1, err := none },
    alphaElapsed := fun _ => 0, betaElapsed := fun _ => 0 }

/-- Stream for the C5 counterexample. -/
def c5BadOut : List SEvent :=
  (alphaState c5BadRun).events ++ [completeEvent c5BadRun]

/-- C5 counterexample: alpha's fragments as received from the network are the
single content beginning with the failure-marker prefix, yet the stream's
alpha chunk subsequence is empty, so the chunk subsequence does not carry
exactly the challenger's received fragments. -/
theorem chunk_subsequence_counterexample :
    MergeOut c5BadRun c5BadOut ∧
    c5BadRun.alphaUp.fragments.map Prod.fst = ["__ERROR__:x".data] ∧
    c5BadOut.filterMap (chunkContentOf alphaId) = [] ∧
    ([] : List Str) ≠ ["__ERROR__:x".data] :=
  ⟨⟨(alphaState c5BadRun).events, interleaves_sound _ _ _ (by decide),
    by simp [c5BadOut]⟩,
   by decide, by decide, by decide⟩
